import Mathlib

/-! Overview.

Verification of the style-transfer core in `src/models/VGG16StyleTransfer.py`.

Modelling conventions:
* Tensor values are exact rationals (`ℚ`); the Python code computes in IEEE
  floats, but every claim here is about the algebraic form of the computation,
  stated by the spec "within floating-point tolerance", so exact arithmetic is
  the faithful shallow embedding.
* A TensorFlow tensor of shape (1, H, W, C) is a `Tensor4`: the batch
  dimension is always 1 in this program and is dropped; `data i j k` is the
  sample at height `i`, width `j`, channel `k`, total over `ℕ` with the shape
  recorded in the `h`, `w`, `c` fields (sums range over the shape).
* A Gram matrix of shape (1, C, C) is a `GramMatQ` (batch dimension dropped).
* External collaborators (the SSD backbone layers, the optimizer, image
  decode/encode) are abstract parameters, exactly as the spec scopes them out.
-/

/-- A (1, H, W, C) activation / image tensor with the batch dimension of 1
dropped.  `data` is total; only indices below the recorded shape matter. -/
structure Tensor4 where
  h : ℕ
  w : ℕ
  c : ℕ
  data : ℕ → ℕ → ℕ → ℚ

/-- A (1, C, C) Gram matrix with the batch dimension of 1 dropped. -/
structure GramMatQ where
  n : ℕ
  entry : ℕ → ℕ → ℚ

/-! Section: Statistic encoder: `gram_calc` (source lines 109-112)

`tf.linalg.einsum('bijc,bijd->bcd', data, data)` with batch 1: the (c, d)
entry is the sum over the spatial grid of `data[0,i,j,c] * data[0,i,j,d]`;
the result is then divided by `data.shape[1] * data.shape[2]`, i.e. H * W. -/

/-- The einsum `'bijc,bijd->bcd'` of a tensor with itself, batch 1. -/
def einsum_bijc_bijd (t : Tensor4) (c d : ℕ) : ℚ :=
  ∑ i ∈ Finset.range t.h, ∑ j ∈ Finset.range t.w, t.data i j c * t.data i j d

/-- Function `gram_calc` from `get_features`: einsum of the activation with itself,
divided by H*W (`data.shape[1] * data.shape[2]`). -/
def gram_calc (t : Tensor4) : GramMatQ :=
  { n := t.c
    entry := fun c d => einsum_bijc_bijd t c d / ((t.h * t.w : ℕ) : ℚ) }

/-- Spec-side Gram formula, written from the spec's words: "the (c, d) entry
is the sum over all spatial positions of the product of channel c and channel
d at that position, divided by H×W". -/
def gramSpecEntry (t : Tensor4) (c d : ℕ) : ℚ :=
  (∑ i ∈ Finset.range t.h, ∑ j ∈ Finset.range t.w, t.data i j c * t.data i j d)
    / ((t.h : ℚ) * (t.w : ℚ))

/-- Normalization `data / 255.0`: the intensity normalization applied before the forward
pass in `get_features` (source line 107). -/
def tensorDiv255 (t : Tensor4) : Tensor4 :=
  { t with data := fun i j k => t.data i j k / 255 }

/-- The part of `get_features` after the forward pass (source lines 114-115):
`gram_calc` mapped over `outputs[:-1]`, and `outputs[-1]` returned as is.
`outputs[-1]` on an empty list is an IndexError, modelled by `getLast?`. -/
def featuresOf (outputs : List Tensor4) : List GramMatQ × Option Tensor4 :=
  ((outputs.dropLast).map gram_calc, outputs.getLast?)

/-- Method `get_features` (source lines 100-115): run the frozen extractor on the
normalized input, Gram-encode the style taps, pass the content tap through.
The extractor itself (the truncated VGG-16 forward pass) is an abstract
function, out of scope per the spec. -/
def get_features (extractor : Tensor4 → List Tensor4) (input : Tensor4) :
    List GramMatQ × Option Tensor4 :=
  featuresOf (extractor (tensorDiv255 input))

/-! Section: Loss function: `get_loss` (source lines 117-137) -/

/-- Elementwise difference of two Gram matrices (`features - targets`);
TensorFlow requires equal shapes here, and the result carries the shape of
the first operand. -/
def gramSubG (a b : GramMatQ) : GramMatQ :=
  { n := a.n, entry := fun c d => a.entry c d - b.entry c d }

/-- Elementwise `tf.square` on a Gram matrix: product with itself. -/
def tfSquareG (a : GramMatQ) : GramMatQ :=
  { n := a.n, entry := fun c d => a.entry c d * a.entry c d }

/-- Reduction `tf.reduce_mean` on a (1, C, C) tensor: the sum of all entries divided by
the element count 1*C*C. -/
def tfReduceMeanG (a : GramMatQ) : ℚ :=
  (∑ c ∈ Finset.range a.n, ∑ d ∈ Finset.range a.n, a.entry c d) / ((a.n * a.n : ℕ) : ℚ)

/-- Elementwise difference of two content tensors
(`content_feature - content_target`); equal shapes required by TensorFlow. -/
def tensorSubT (a b : Tensor4) : Tensor4 :=
  { a with data := fun i j k => a.data i j k - b.data i j k }

/-- Elementwise `tf.square` on a (1, H, W, C) tensor. -/
def tfSquareT (a : Tensor4) : Tensor4 :=
  { a with data := fun i j k => a.data i j k * a.data i j k }

/-- Reduction `tf.reduce_sum` on a (1, H, W, C) tensor: the sum of all entries. -/
def tfReduceSumT (a : Tensor4) : ℚ :=
  ∑ i ∈ Finset.range a.h, ∑ j ∈ Finset.range a.w, ∑ k ∈ Finset.range a.c, a.data i j k

/-- Summation `tf.add_n`: sum of a list of scalars. -/
def tfAddN (l : List ℚ) : ℚ := l.sum

/-- The literal `1e-30` of the source, exact. -/
def contentWeight : ℚ := 1 / 10 ^ 30

/-- The style-loss term of `get_loss` (source lines 129-134):
`tf.add_n([tf.reduce_mean(tf.square(f - t)) for f, t in zip(feature, target)])`. -/
def style_loss_def (style_feature style_target : List GramMatQ) : ℚ :=
  tfAddN ((style_feature.zip style_target).map
    (fun p => tfReduceMeanG (tfSquareG (gramSubG p.1 p.2))))

/-- The content-loss term of `get_loss` (source line 135):
`tf.add_n([0.5 * tf.reduce_sum(tf.square(content_feature - content_target))])`. -/
def content_loss_def (content_feature content_target : Tensor4) : ℚ :=
  tfAddN [(1 / 2 : ℚ) * tfReduceSumT (tfSquareT (tensorSubT content_feature content_target))]

/-- Method `get_loss` (source lines 117-137): `1 * style_loss + 1e-30 * content_loss`. -/
def get_loss (style_target style_feature : List GramMatQ)
    (content_target content_feature : Tensor4) : ℚ :=
  1 * style_loss_def style_feature style_target
    + contentWeight * content_loss_def content_feature content_target

/-! Spec-side loss, written from the spec's words. -/

/-- Spec-side: "mean squared element-wise difference between generated and
target Gram matrices" (mean over the 1*C*C entries of the shape-C pair). -/
def meanSqDiffSpec (gen tgt : GramMatQ) : ℚ :=
  (∑ c ∈ Finset.range gen.n, ∑ d ∈ Finset.range gen.n,
      (gen.entry c d - tgt.entry c d) ^ 2) / ((gen.n : ℚ) * (gen.n : ℚ))

/-- Spec-side: "the style loss is the sum over all style-layer pairs of the
mean squared element-wise difference". -/
def styleLossSpec (gen tgt : List GramMatQ) : ℚ :=
  (List.zipWith meanSqDiffSpec gen tgt).sum

/-- Spec-side: "the content loss is 0.5 times the sum of squared element-wise
differences between generated and target content tensors". -/
def contentLossSpec (gen tgt : Tensor4) : ℚ :=
  (1 / 2 : ℚ) * ∑ i ∈ Finset.range gen.h, ∑ j ∈ Finset.range gen.w,
    ∑ k ∈ Finset.range gen.c, (gen.data i j k - tgt.data i j k) ^ 2

/-- Spec-side: "1.0 times the style loss plus 1e-30 times the content loss". -/
def totalLossSpec (styleGen styleTgt : List GramMatQ) (contentGen contentTgt : Tensor4) : ℚ :=
  1 * styleLossSpec styleGen styleTgt + contentWeight * contentLossSpec contentGen contentTgt

/-! Section: Optimization loop: `training` (source lines 139-190)

One iteration runs the extractor+encoder+loss+autodiff pipeline and then
`optimizer.apply_gradients`.  The gradient of the loss at the current
generated image, and the optimizer internal state at the current epoch,
together determine the updated image, so one whole iteration up to (but not
including) the clamp is modelled as an abstract `optStep : ℕ → Tensor4 →
Tensor4` (epoch index, current image ↦ updated image); the claims about the
loop hold for every such step function.  Snapshots are kept as tensors:
`tf.keras.preprocessing.image.array_to_img` is presentation-layer conversion,
out of scope per the spec. -/

/-- Clamp `tf.clip_by_value(·, 0.0, 255.0)` applied elementwise (source line 185). -/
def clampTensor (t : Tensor4) : Tensor4 :=
  { t with data := fun i j k => min 255 (max 0 (t.data i j k)) }

/-- The epoch loop of `training` (source lines 167-189), started at epoch
index `e` with `remaining` epochs to go: each iteration applies the optimizer
step, clamps into [0, 255], and appends a snapshot of the updated image. -/
def runEpochs (optStep : ℕ → Tensor4 → Tensor4) (gen : Tensor4) :
    (e : ℕ) → (remaining : ℕ) → List Tensor4
  | _, 0 => []
  | e, n + 1 =>
    let g := clampTensor (optStep e gen)
    g :: runEpochs optStep g (e + 1) n

/-- Method `training` (source lines 139-190): snapshot the unmodified content image,
then run the epoch loop; returns the full snapshot list. -/
def training (optStep : ℕ → Tensor4 → Tensor4) (content_image : Tensor4)
    (epochs : ℕ) : List Tensor4 :=
  content_image :: runEpochs optStep content_image 0 epochs

/-! Section: Weight transplant (source lines 62-74)

The loop copies `SSD_backbone.get_layer(ssd_seq_idx).get_layer(ssd_layer_idx)
.get_weights()` into target layer `i` and sets it non-trainable.
`ssd_layer_idx` is reset to `i` each iteration; `ssd_seq_idx` is a variable
carried across iterations, initialized to 0 and set to 1 whenever `i >= 13`.
The two backbone sub-stacks are abstract weight sources `b0 b1 : ℕ → W`. -/

/-- A target layer after the transplant loop touched it: the weights written
by `set_weights` and the `trainable` flag written right after. -/
structure Layer (W : Type) where
  weights : W
  trainable : Bool

/-- The body of the transplant loop over an explicit list of target indices,
carrying the mutable `ssd_seq_idx` exactly as the source does. -/
def transplantGo (b0 b1 : ℕ → W) : (seqIdx : ℕ) → List ℕ → List (Layer W)
  | _, [] => []
  | seqIdx, i :: rest =>
    let s := if 13 ≤ i then 1 else seqIdx
    let l := if 13 ≤ i then i - 13 else i
    { weights := (if s = 1 then b1 else b0) l, trainable := false }
      :: transplantGo b0 b1 s rest

/-- The transplant loop of `__init__` (source lines 62-74):
`for i in range(len(self.VGG16_tilStage5.layers))` with `ssd_seq_idx = 0`. -/
def transplant (b0 b1 : ℕ → W) (numLayers : ℕ) : List (Layer W) :=
  transplantGo b0 b1 0 (List.range numLayers)

/-! Section: Precision selector (source lines 31-37) -/

/-- The two floating-point widths the constructor can select. -/
inductive FloatType
  | f32
  | f16
deriving DecidableEq

/-- The precision check at the top of `__init__` (source lines 31-37):
32 selects `tf.float32`, 16 selects `tf.float16`, anything else raises
`Exception('floatType should be either 32 or 16')`. -/
def selectFloatType (floatType : ℤ) : Except String FloatType :=
  if floatType = 32 then Except.ok FloatType.f32
  else if floatType = 16 then Except.ok FloatType.f16
  else Except.error "floatType should be either 32 or 16"

/-! Section: Video frame loop: `inferOnVideo` (source lines 236-322)

The video is an abstract list of frames (what `cap.read()` yields in order);
the per-frame work (resize to 300x300, one `training` run, final snapshot,
resize back, thumbnail compositing) is an abstract `proc : F → G`.  The
source: `i = 0`; the loop runs `number_of_frame` times where
`number_of_frame = end_idx if end_idx != -1 else frame_count`; each pass
reads a frame (breaking when the stream is exhausted), increments `i`,
`continue`s while `i <= start_idx`, breaks when `end_idx >= 0 and i >
end_idx`, `continue`s when `i % skip != 0`, else processes and appends. -/

/-- One run of the frame loop body (source lines 243-318), with `fuel` the
remaining iterations of `range(number_of_frame)` and `i` the count of frames
already read. -/
def frameLoopGo (proc : F → G) (start_idx end_idx skip : ℤ) :
    List F → (i : ℕ) → (fuel : ℕ) → List G
  | _, _, 0 => []
  | [], _, _ + 1 => []
  | f :: rest, i, fuel + 1 =>
    if ((i + 1 : ℕ) : ℤ) ≤ start_idx then
      frameLoopGo proc start_idx end_idx skip rest (i + 1) fuel
    else if 0 ≤ end_idx ∧ end_idx < ((i + 1 : ℕ) : ℤ) then []
    else if ¬ (((i + 1 : ℕ) : ℤ) % skip = 0) then
      frameLoopGo proc start_idx end_idx skip rest (i + 1) fuel
    else
      proc f :: frameLoopGo proc start_idx end_idx skip rest (i + 1) fuel

/-- The accumulated `imgs` list produced by `inferOnVideo`'s frame loop
(source lines 236-318): `number_of_frame` iterations starting from `i = 0`. -/
def inferOnVideoFrames (proc : F → G) (frames : List F)
    (start_idx end_idx skip : ℤ) : List G :=
  let numberOfFrame : ℕ := if end_idx = -1 then frames.length else end_idx.toNat
  frameLoopGo proc start_idx end_idx skip frames 0 numberOfFrame

/-- The per-frame selection condition of the spec, on a 0-based-indexed
frame: the index lies in the half-open range [start_idx, end_idx) and
satisfies the stride condition (the source's `i % skip == 0` on the 1-based
count, i.e. `(index + 1) % skip == 0`). -/
def frameCond (start_idx end_idx skip : ℤ) (p : ℕ × F) : Bool :=
  decide (start_idx ≤ (p.1 : ℤ) ∧ (p.1 : ℤ) < end_idx ∧ ((p.1 : ℤ) + 1) % skip = 0)

/-- Spec-side selection, from the spec's words: the frames whose 0-based
index lies in [start_idx, end_idx) and satisfies the stride condition, each
processed in order. -/
def framesInRangeSpec (proc : F → G) (frames : List F)
    (start_idx end_idx skip : ℤ) : List G :=
  ((List.enumFrom 0 frames).filter (frameCond start_idx end_idx skip)).map
    (fun p => proc p.2)

/-- The final save of `inferOnVideo` (source line 320): `imgs[0].save(...,
append_images=imgs[1:], ...)`.  Indexing an empty Python list raises
IndexError, modelled as the error case. -/
def saveGif (imgs : List G) : Except String (List G) :=
  match imgs with
  | [] => Except.error "IndexError"
  | x :: rest => Except.ok (x :: rest)

/-! Section: Single-image content load: `inferOnImage` (source lines 324-367)

`inferOnImage(style_image_path, optimizer, epochs, image_path, out_path, ...)`
documents `image_path` as "path the content image", but line 350 reads
`content_image_init = Image.open("imgs/content.jpg")` — a hardcoded path. -/

/-- The external media collaborators `inferOnImage` uses to obtain its
content tensor: `Image.open`+`np.array`, and `cv2.resize(..., (300, 300))`. -/
structure MediaEnv where
  openImage : String → Tensor4
  resizeTo300 : Tensor4 → Tensor4

/-- The content tensor `inferOnImage` actually loads, resizes to (300, 300)
and hands to `training` (source lines 350-356): the file opened is the
constant `"imgs/content.jpg"`, not the `image_path` argument. -/
def inferOnImageContent (env : MediaEnv) (image_path : String) : Tensor4 :=
  env.resizeTo300 (env.openImage "imgs/content.jpg")

/-! Section: Concrete instances used by witnesses -/

/-- A constant-valued 300x300x3 tensor. -/
def constTensor (q : ℚ) : Tensor4 :=
  { h := 300, w := 300, c := 3, data := fun _ _ _ => q }

/-- A tiny 1x1x1 tensor with the given single sample. -/
def oneCell (q : ℚ) : Tensor4 :=
  { h := 1, w := 1, c := 1, data := fun _ _ _ => q }

/-- A 1x1 Gram matrix with the given single entry. -/
def oneGram (q : ℚ) : GramMatQ :=
  { n := 1, entry := fun _ _ => q }

/-- An optimizer step that drives every sample to 300 (outside [0, 255]). -/
def exStep : ℕ → Tensor4 → Tensor4 :=
  fun _ t => { t with data := fun _ _ _ => 300 }

/-- A media environment whose decoder distinguishes the hardcoded path from
every other path. -/
def exMediaEnv : MediaEnv :=
  { openImage := fun p => if p = "imgs/content.jpg" then constTensor 1 else constTensor 2
    resizeTo300 := id }

/-! Section: Helper lemmas -/

/-- Summing a binary function over zipped pairs equals summing over
`zipWith`. -/
theorem zip_map_sum_eq_zipWith_sum (f : α → β → ℚ) :
    ∀ (l1 : List α) (l2 : List β),
      ((l1.zip l2).map (fun p => f p.1 p.2)).sum = (List.zipWith f l1 l2).sum
  | [], _ => by simp
  | _ :: _, [] => by simp
  | a :: l1, b :: l2 => by
    simp [zip_map_sum_eq_zipWith_sum f l1 l2]

/-- Per-pair style term: reduce-mean of the squared Gram difference is the
spec's mean squared elementwise difference. -/
theorem style_term_eq_spec (a b : GramMatQ) :
    tfReduceMeanG (tfSquareG (gramSubG a b)) = meanSqDiffSpec a b := by
  unfold tfReduceMeanG tfSquareG gramSubG meanSqDiffSpec
  simp [pow_two]

/-- Every snapshot produced by the epoch loop is the clamp of some tensor. -/
theorem mem_runEpochs_clamped (optStep : ℕ → Tensor4 → Tensor4) :
    ∀ (remaining e : ℕ) (gen t : Tensor4), t ∈ runEpochs optStep gen e remaining →
      ∃ s, t = clampTensor s
  | 0, _, _, _, h => by simp [runEpochs] at h
  | n + 1, e, gen, t, h => by
    rw [runEpochs] at h
    rcases List.mem_cons.mp h with h | h
    · exact ⟨optStep e gen, h⟩
    · exact mem_runEpochs_clamped optStep n (e + 1) _ t h

/-- The epoch loop yields one snapshot per epoch. -/
theorem runEpochs_length (optStep : ℕ → Tensor4 → Tensor4) :
    ∀ (remaining e : ℕ) (gen : Tensor4), (runEpochs optStep gen e remaining).length = remaining
  | 0, _, _ => rfl
  | n + 1, e, gen => by
    rw [runEpochs]
    simp [runEpochs_length optStep n]

/-- Spec-side description of one transplanted layer: sub-stack 0 layer `i`
below 13, sub-stack 1 layer `i - 13` from 13 on, frozen. -/
def layerMapSpec (b0 b1 : ℕ → W) (i : ℕ) : Layer W :=
  if 13 ≤ i then { weights := b1 (i - 13), trainable := false }
  else { weights := b0 i, trainable := false }

/-- The transplant loop body equals the spec-side per-index map on any index
list that never drops back below 13 after reaching it, provided the carried
`ssd_seq_idx` is 0 or every index is at least 13. -/
theorem transplantGo_eq_map (b0 b1 : ℕ → W) :
    ∀ (l : List ℕ) (s : ℕ), (s = 0 ∨ ∀ i ∈ l, 13 ≤ i) →
      l.Pairwise (fun a b => 13 ≤ a → 13 ≤ b) →
      transplantGo b0 b1 s l = l.map (layerMapSpec b0 b1)
  | [], _, _, _ => rfl
  | i :: rest, s, hs, hp => by
    rw [List.pairwise_cons] at hp
    obtain ⟨hhead, htail⟩ := hp
    by_cases hi : 13 ≤ i
    · have ih := transplantGo_eq_map b0 b1 rest 1 (Or.inr fun j hj => hhead j hj hi) htail
      simp [transplantGo, hi, layerMapSpec, ih]
    · have hs0 : s = 0 := by
        rcases hs with h | h
        · exact h
        · exact absurd (h i (List.mem_cons_self i rest)) hi
      subst hs0
      have ih := transplantGo_eq_map b0 b1 rest 0 (Or.inl rfl) htail
      simp [transplantGo, hi, layerMapSpec, ih]

/-- The whole transplant loop is the spec-side map over `range numLayers`. -/
theorem transplant_eq_map (b0 b1 : ℕ → W) (n : ℕ) :
    transplant b0 b1 n = (List.range n).map (layerMapSpec b0 b1) := by
  refine transplantGo_eq_map b0 b1 (List.range n) 0 (Or.inl rfl) ?_
  exact (List.pairwise_lt_range n).imp (fun hab h13 => le_of_lt (lt_of_le_of_lt h13 hab))

/-! Section: Claim theorems -/

/-- C1: `get_loss` returns 1.0 times the style loss plus 1e-30 times the
content loss, where the style loss is the sum over style-layer pairs of the
mean squared elementwise Gram difference and the content loss is 0.5 times
the sum of squared elementwise content differences. -/
theorem get_loss_eq_totalLossSpec (style_target style_feature : List GramMatQ)
    (content_target content_feature : Tensor4)
    (hlen : style_feature.length = style_target.length) :
    get_loss style_target style_feature content_target content_feature
      = totalLossSpec style_feature style_target content_feature content_target := by
  unfold get_loss totalLossSpec
  congr 1
  · unfold style_loss_def styleLossSpec tfAddN
    rw [← zip_map_sum_eq_zipWith_sum meanSqDiffSpec]
    congr 1
    exact congrArg List.sum
      (List.map_congr_left fun (p : GramMatQ × GramMatQ) _ => style_term_eq_spec p.1 p.2)
  · unfold content_loss_def contentLossSpec tfAddN tfReduceSumT tfSquareT tensorSubT
    simp [pow_two]

/-- C1 witness: the theorem applied at concrete one-entry inputs. -/
theorem get_loss_eq_totalLossSpec_witness :
    ([oneGram 5].length = [oneGram 2].length)
    ∧ get_loss [oneGram 2] [oneGram 5] (oneCell 3) (oneCell 4)
        = totalLossSpec [oneGram 5] [oneGram 2] (oneCell 4) (oneCell 3) :=
  ⟨rfl, get_loss_eq_totalLossSpec [oneGram 2] [oneGram 5] (oneCell 3) (oneCell 4) rfl⟩

/-- C2: the Gram computation returns a C-by-C matrix whose (c, d) entry is
the sum over spatial positions of the channel product, divided by H*W; and
the content-tap output passes through `get_features` with no Gram applied. -/
theorem gram_calc_spec_and_content_untouched (t : Tensor4) (c d : ℕ)
    (styleTaps : List Tensor4) (contentTap : Tensor4) :
    (gram_calc t).n = t.c
    ∧ (gram_calc t).entry c d = gramSpecEntry t c d
    ∧ featuresOf (styleTaps ++ [contentTap]) = (styleTaps.map gram_calc, some contentTap) := by
  refine ⟨rfl, ?_, ?_⟩
  · unfold gram_calc gramSpecEntry einsum_bijc_bijd
    simp
  · unfold featuresOf
    simp

/-- C3: `training` for N epochs returns exactly N+1 snapshots, the first
being the unmodified content image; with 0 epochs it returns exactly that
single snapshot. -/
theorem training_snapshot_count (optStep : ℕ → Tensor4 → Tensor4)
    (content_image : Tensor4) (epochs : ℕ) :
    (training optStep content_image epochs).length = epochs + 1
    ∧ (training optStep content_image epochs).head? = some content_image
    ∧ training optStep content_image 0 = [content_image] := by
  refine ⟨?_, rfl, rfl⟩
  simp [training, runEpochs_length]

/-- C5: each snapshot taken after an iteration of the optimization loop (the
tail of the returned list) has every sample in [0.0, 255.0], whatever the
optimizer step produced. -/
theorem training_tail_clamped (optStep : ℕ → Tensor4 → Tensor4)
    (content_image : Tensor4) (epochs : ℕ) (t : Tensor4)
    (ht : t ∈ (training optStep content_image epochs).tail) (i j k : ℕ) :
    0 ≤ t.data i j k ∧ t.data i j k ≤ 255 := by
  have hmem : t ∈ runEpochs optStep content_image 0 epochs := by
    simpa [training] using ht
  obtain ⟨s, rfl⟩ := mem_runEpochs_clamped optStep epochs 0 content_image t hmem
  refine ⟨le_min (by norm_num) (le_max_left 0 _), min_le_left _ _⟩

/-- C5 witness: one epoch whose optimizer step drives samples to 300 still
yields a snapshot inside [0, 255]. -/
theorem training_tail_clamped_witness :
    0 ≤ (clampTensor (exStep 0 (oneCell 7))).data 0 0 0
    ∧ (clampTensor (exStep 0 (oneCell 7))).data 0 0 0 ≤ 255 :=
  training_tail_clamped exStep (oneCell 7) 1 (clampTensor (exStep 0 (oneCell 7)))
    (by simp [training, runEpochs]) 0 0 0

/-- C4: the transplant writes backbone sub-stack 0 layer i into target layer
i for i < 13, sub-stack 1 layer i-13 for i >= 13, and marks every copied
layer non-trainable, for all layers of the target topology. -/
theorem transplant_layer_mapping {W : Type} (b0 b1 : ℕ → W) (numLayers i : ℕ)
    (hi : i < numLayers) :
    (transplant b0 b1 numLayers)[i]? =
      some { weights := if i < 13 then b0 i else b1 (i - 13), trainable := false } := by
  rw [transplant_eq_map, List.getElem?_map, List.getElem?_range hi]
  by_cases h13 : i < 13
  · simp [layerMapSpec, Nat.not_le.mpr h13, h13]
  · simp [layerMapSpec, Nat.le_of_not_lt h13, h13]

/-- C4 witness: the theorem applied at the boundary layer 13 of a 14-layer
target with sub-stacks that tag their index. -/
theorem transplant_layer_mapping_witness :
    (13 < 14)
    ∧ (transplant (fun i => (0, i)) (fun i => (1, i)) 14)[13]? =
        some { weights := if 13 < 13 then (0, 13) else (1, 13 - 13), trainable := false } :=
  ⟨by decide, transplant_layer_mapping (fun i => (0, i)) (fun i => (1, i)) 14 13 (by decide)⟩

/-- C8: the Gram matrix is symmetric: entry (c, d) equals entry (d, c). -/
theorem gram_calc_symm (t : Tensor4) (c d : ℕ) :
    (gram_calc t).entry c d = (gram_calc t).entry d c := by
  unfold gram_calc einsum_bijc_bijd
  simp only
  congr 1
  refine Finset.sum_congr rfl fun i _ => Finset.sum_congr rfl fun j _ => ?_
  ring

/-- C9: the constructor accepts precision selectors 32 (selecting 32-bit) and
16 (selecting 16-bit) and raises a configuration error for any other value. -/
theorem selectFloatType_spec (n : ℤ) (h32 : n ≠ 32) (h16 : n ≠ 16) :
    selectFloatType 32 = Except.ok FloatType.f32
    ∧ selectFloatType 16 = Except.ok FloatType.f16
    ∧ selectFloatType n = Except.error "floatType should be either 32 or 16" := by
  refine ⟨rfl, rfl, ?_⟩
  unfold selectFloatType
  simp [h32, h16]

/-- C9 witness: the theorem applied at the invalid selector 64. -/
theorem selectFloatType_spec_witness :
    ((64 : ℤ) ≠ 32) ∧ ((64 : ℤ) ≠ 16)
    ∧ (selectFloatType 32 = Except.ok FloatType.f32
       ∧ selectFloatType 16 = Except.ok FloatType.f16
       ∧ selectFloatType 64 = Except.error "floatType should be either 32 or 16") :=
  ⟨by decide, by decide, selectFloatType_spec 64 (by decide) (by decide)⟩

/-- C6: evidence of the hardcoded content path. `inferOnImage` loads the
fixed file "imgs/content.jpg" and ignores its `image_path` argument: under a
decoder that distinguishes the two paths, the tensor handed to the optimizer
is the hardcoded file's, not the one at the supplied path. -/
theorem inferOnImageContent_ignores_image_path :
    inferOnImageContent exMediaEnv "imgs/other.jpg"
        = exMediaEnv.resizeTo300 (exMediaEnv.openImage "imgs/content.jpg")
    ∧ inferOnImageContent exMediaEnv "imgs/other.jpg"
        ≠ exMediaEnv.resizeTo300 (exMediaEnv.openImage "imgs/other.jpg") := by
  constructor
  · rfl
  · intro h
    have h2 := congrArg (fun t => t.data 0 0 0) h
    simp [inferOnImageContent, exMediaEnv, constTensor] at h2

/-- C10: whenever the frame loop selects no frame, the final save step
`imgs[0].save(...)` hits an empty list and raises an index error instead of
writing an output file. -/
theorem saveGif_error_of_no_frames (proc : F → G) (frames : List F)
    (start_idx end_idx skip : ℤ)
    (h : inferOnVideoFrames proc frames start_idx end_idx skip = []) :
    saveGif (inferOnVideoFrames proc frames start_idx end_idx skip)
      = Except.error "IndexError" := by
  rw [h]
  rfl

/-- C10 witness: a two-frame video with a start index beyond the range
selects nothing, and the save step errors. -/
theorem saveGif_error_of_no_frames_witness :
    inferOnVideoFrames (fun n => n) ([10, 20] : List ℕ) 5 2 1 = []
    ∧ saveGif (inferOnVideoFrames (fun n => n) ([10, 20] : List ℕ) 5 2 1)
        = Except.error "IndexError" :=
  ⟨by decide, saveGif_error_of_no_frames (fun n => n) [10, 20] 5 2 1 (by decide)⟩

/-! Section: C7: the frame-selection behaviour of the `inferOnVideo` loop -/

/-- The frame loop yields nothing once the stream is exhausted. -/
theorem frameLoopGo_nil (proc : F → G) (s e skip : ℤ) (i fuel : ℕ) :
    frameLoopGo proc s e skip [] i fuel = [] := by
  cases fuel <;> rfl

/-- The frame loop yields nothing once the iteration budget is spent. -/
theorem frameLoopGo_fuel_zero (proc : F → G) (s e skip : ℤ) (l : List F) (i : ℕ) :
    frameLoopGo proc s e skip l i 0 = [] := by
  cases l <;> rfl

/-- Beyond the end index, the spec-side selection over the remaining frames
is empty. -/
theorem filter_enumFrom_past_end (s e skip : ℤ) :
    ∀ (l : List F) (i : ℕ), e ≤ (i : ℤ) →
      (List.enumFrom i l).filter (frameCond s e skip) = []
  | [], _, _ => rfl
  | f :: rest, i, h => by
    have hcond : frameCond s e skip (i, f) = false := by
      have hns : ¬ (s ≤ (i : ℤ) ∧ (i : ℤ) < e ∧ ((i : ℤ) + 1) % skip = 0) := by
        rintro ⟨_, hlt, _⟩
        omega
      simpa [frameCond] using hns
    rw [List.enumFrom, List.filter_cons, hcond]
    simpa using filter_enumFrom_past_end s e skip rest (i + 1) (by push_cast; omega)

/-- With a nonnegative end index and the fuel the source computes
(`end_idx` iterations, of which `i` are already spent), the frame loop over
the remaining frames equals the spec-side selection over those frames. -/
theorem frameLoopGo_eq_filter (proc : F → G) (s e skip : ℤ) (he : 0 ≤ e) :
    ∀ (frames : List F) (i : ℕ),
      frameLoopGo proc s e skip frames i (e.toNat - i)
        = ((List.enumFrom i frames).filter (frameCond s e skip)).map (fun p => proc p.2)
  | [], i => by
    rw [frameLoopGo_nil]
    simp
  | f :: rest, i => by
    rcases Nat.eq_zero_or_pos (e.toNat - i) with h0 | hpos
    · rw [h0, filter_enumFrom_past_end s e skip (f :: rest) i (by omega)]
      rfl
    · obtain ⟨m, hm⟩ : ∃ m, e.toNat - i = m + 1 := ⟨e.toNat - i - 1, by omega⟩
      have hm' : e.toNat - (i + 1) = m := by omega
      have hie : (i : ℤ) < e := by omega
      have ih := frameLoopGo_eq_filter proc s e skip he rest (i + 1)
      rw [hm'] at ih
      rw [hm, List.enumFrom]
      simp only [frameLoopGo]
      split_ifs with h1 h2 h3
      · have hcond : frameCond s e skip (i, f) = false := by
          simp only [frameCond, decide_eq_false_iff_not]
          rintro ⟨hsle, -, -⟩
          omega
        simp [List.filter_cons, hcond, ih]
      · exact absurd h2 (by rintro ⟨-, hlt⟩; omega)
      · have hcond : frameCond s e skip (i, f) = true := by
          simp only [frameCond, decide_eq_true_eq]
          refine ⟨by omega, hie, ?_⟩
          push_cast at h3
          exact h3
        simp [List.filter_cons, hcond, ih]
      · have hcond : frameCond s e skip (i, f) = false := by
          simp only [frameCond, decide_eq_false_iff_not]
          rintro ⟨-, -, hmod⟩
          exact h3 (by push_cast; exact hmod)
        simp [List.filter_cons, hcond, ih]

/-- C7, amended: for every start index, every end index other than the
sentinel -1, and every positive stride, the frame loop processes exactly the
frames whose 0-based index lies in [start_idx, end_idx) and satisfies the
stride condition, in order, over however many frames the stream yields
(a stream ending early just shortens the selection, it is not an error). -/
theorem inferOnVideoFrames_eq_selection (proc : F → G) (frames : List F)
    (start_idx end_idx skip : ℤ) (he : end_idx ≠ -1) (hskip : 0 < skip) :
    inferOnVideoFrames proc frames start_idx end_idx skip
      = framesInRangeSpec proc frames start_idx end_idx skip := by
  unfold inferOnVideoFrames framesInRangeSpec
  rw [if_neg he]
  rcases le_or_lt 0 end_idx with h | h
  · simpa using frameLoopGo_eq_filter proc start_idx end_idx skip h frames 0
  · have ht : end_idx.toNat = 0 := by omega
    rw [ht, filter_enumFrom_past_end start_idx end_idx skip frames 0 (by omega)]
    simp [frameLoopGo_fuel_zero]

/-- C7 counterexample: with the default sentinel end index -1, the source
processes the whole stream, while the half-open range [start_idx, -1) of the
claim selects nothing; so the claim, quantified over every end index, fails
at end_idx = -1. -/
theorem inferOnVideoFrames_sentinel_counterexample :
    inferOnVideoFrames (fun n => n) ([10] : List ℕ) 0 (-1) 1 = [10]
    ∧ framesInRangeSpec (fun n => n) ([10] : List ℕ) 0 (-1) 1 = []
    ∧ inferOnVideoFrames (fun n => n) ([10] : List ℕ) 0 (-1) 1
        ≠ framesInRangeSpec (fun n => n) ([10] : List ℕ) 0 (-1) 1 :=
  ⟨by decide, by decide, by decide⟩

/-- C7 witness: the amended theorem applied to a three-frame stream with
range [0, 2) and stride 1. -/
theorem inferOnVideoFrames_eq_selection_witness :
    ((2 : ℤ) ≠ -1) ∧ ((0 : ℤ) < 1)
    ∧ inferOnVideoFrames (fun n => n + 1) ([10, 20, 30] : List ℕ) 0 2 1
        = framesInRangeSpec (fun n => n + 1) ([10, 20, 30] : List ℕ) 0 2 1 :=
  ⟨by decide, by decide,
    inferOnVideoFrames_eq_selection (fun n => n + 1) [10, 20, 30] 0 2 1
      (by decide) (by decide)⟩
